import Mathlib

/-!
Shallow embedding of the Move model builder's incremental symbol-table engine
(`move-model/src/builder/model_builder.rs`) together with proofs about its
registration, lookup and diagnostic behaviour.

Modelling conventions:
* `BTreeMap` becomes an association list (`List (K × V)`) with replace-at-key
  insertion (`mapInsert`) and first-match lookup (`mapFind`); `BTreeSet`
  becomes a duplicate-free list with `setInsert`.
* Diagnostics reported through the global environment are modelled as a list
  of `Diag` records appended in emission order; messages are modelled
  structurally (one constructor per distinct message family of the source).
* Panics (`expect` on the reverse struct table, on the schema table) are
  modelled by `Option`, `none` standing for the abort.
* Data the builder merely stores and never inspects (attributes, constant
  values, inline spec blocks, constraint payloads) is carried as numeric
  placeholders.
-/

namespace ModelBuilding

/-- Interned symbols are modelled by their text. -/
abbrev Symbol := String

/-- Source locations, relevant to the claims only up to identity. -/
abbrev Loc := Nat

abbrev ModuleId := Nat

abbrev StructId := Nat

abbrev FunId := Nat

abbrev SpecVarId := Nat

/-- Attribute payloads are stored but never inspected by the builder. -/
abbrev Attribute := Nat

/-- Constraint payloads (`ty::Constraint`) are stored but never inspected here. -/
abbrev Constraint := Nat

/-- A module name: numerical address plus name symbol. -/
structure ModuleName where
  addr : Nat
  name : Symbol
deriving DecidableEq, Repr

/-- A module-qualified symbol, the key of every builder table. -/
structure QualifiedSymbol where
  module_name : ModuleName
  symbol : Symbol
deriving DecidableEq, Repr

/-- The four Move abilities as a set of flags. -/
structure AbilitySet where
  copy : Bool
  drop : Bool
  store : Bool
  key : Bool
deriving DecidableEq, Repr

def AbilitySet.all : AbilitySet := ⟨true, true, true, true⟩

def AbilitySet.empty : AbilitySet := ⟨false, false, false, false⟩

def AbilitySet.inter (a b : AbilitySet) : AbilitySet :=
  ⟨a.copy && b.copy, a.drop && b.drop, a.store && b.store, a.key && b.key⟩

/-- Boolean subset test on ability sets. -/
def AbilitySet.subset (a b : AbilitySet) : Bool :=
  (!a.copy || b.copy) && (!a.drop || b.drop) && (!a.store || b.store) && (!a.key || b.key)

/-- Kind of a type parameter: required abilities plus the phantom flag. -/
structure TypeParameterKind where
  abilities : AbilitySet
  is_phantom : Bool
deriving DecidableEq, Repr

/-- A declared type parameter `(symbol, kind, loc)`. -/
structure TypeParameter where
  name : Symbol
  kind : TypeParameterKind
  loc : Loc
deriving DecidableEq, Repr

/-- The fragment of `ty::Type` the builder's operations touch. -/
inductive Type' where
  | Primitive (tag : Nat)
  | TypeParameter (idx : Nat)
  | Struct (mid : ModuleId) (sid : StructId) (args : List Type')
  | Reference (is_mut : Bool) (target : Type')
  | Error

def Type'.is_reference : Type' → Bool
  | .Reference _ _ => true
  | _ => false

/-- A value parameter `(symbol, type, loc)`. -/
structure Parameter where
  name : Symbol
  ty : Type'
  loc : Loc

/-- The fragment of `ast::Operation` distinguished by the builder: the
equality operators, user Move functions, spec functions, and a tag for all
remaining builtin operations. -/
inductive Operation where
  | Eq
  | Neq
  | MoveFunction (mid : ModuleId) (fid : FunId)
  | SpecFunction (mid : ModuleId) (fid : Nat)
  | Builtin (tag : Nat)
deriving DecidableEq, Repr

inductive Visibility where
  | Public
  | Friend
  | Private
deriving DecidableEq, Repr

inductive FunctionKind where
  | Regular
  | Inline
  | Entry
deriving DecidableEq, Repr

inductive EntryVisibility where
  | Spec
  | Impl
  | SpecAndImpl
deriving DecidableEq, Repr

/-- Specification block payload (`ast::Spec`), opaque to the builder. -/
structure Spec where
  conditions : List Nat
deriving DecidableEq, Repr

/-- `Spec::default()`. -/
def Spec.empty : Spec := ⟨[]⟩

/-- A local-variable entry used inside schema entries. -/
structure LocalVarEntry where
  loc : Loc
  type_ : Type'
  operation : Option Operation
  temp_index : Option Nat

/-- A declaration of a specification function or operator. -/
structure SpecOrBuiltinFunEntry where
  loc : Loc
  oper : Operation
  type_params : List TypeParameter
  type_param_constraints : List (Nat × Constraint)
  params : List Parameter
  result_type : Type'
  visibility : EntryVisibility

/-- A declaration of a specification variable. -/
structure SpecVarEntry where
  loc : Loc
  module_id : ModuleId
  var_id : SpecVarId
  type_params : List TypeParameter
  type_ : Type'

/-- A declaration of a specification schema. -/
structure SpecSchemaEntry where
  loc : Loc
  name : QualifiedSymbol
  module_id : ModuleId
  type_params : List TypeParameter
  vars : List Parameter
  spec : Spec
  all_vars : List (Symbol × LocalVarEntry)
  included_spec : Spec

/-- A declaration of a struct. -/
structure StructEntry where
  loc : Loc
  module_id : ModuleId
  struct_id : StructId
  type_params : List TypeParameter
  abilities : AbilitySet
  fields : Option (List (Symbol × (Loc × Nat × Type')))
  attributes : List Attribute

/-- A declaration of a function. -/
structure FunEntry where
  loc : Loc
  name_loc : Loc
  module_id : ModuleId
  fun_id : FunId
  visibility : Visibility
  is_native : Bool
  kind : FunctionKind
  type_params : List TypeParameter
  params : List Parameter
  result_type : Type'
  attributes : List Attribute
  inline_specs : List (Nat × Nat)

/-- Tagged union over the two callable kinds. -/
inductive AnyFunEntry where
  | SpecOrBuiltin (e : SpecOrBuiltinFunEntry)
  | UserFun (e : FunEntry)

/-- A declaration of a constant. -/
structure ConstEntry where
  loc : Loc
  ty : Type'
  value : Nat
  visibility : EntryVisibility

/-- Diagnostic severities used by the builder. -/
inductive Severity where
  | Error
  | Note
  | Warning
deriving DecidableEq, Repr

/-- The distinct diagnostic message families emitted by the builder. -/
inductive Msg where
  | nameClash (sym : Symbol)
  | duplicateDecl (name : QualifiedSymbol)
  | previousDecl (name : QualifiedSymbol)
  | undeclared (name : QualifiedSymbol)
  | undeclaredAddress (name : Symbol)
  | phantomFieldError
  | abilityViolation
  | unusedSchema (name : QualifiedSymbol)
deriving DecidableEq, Repr

/-- One emitted diagnostic. -/
structure Diag where
  severity : Severity
  loc : Loc
  msg : Msg
deriving DecidableEq, Repr

/-- Lookup in an association list (`BTreeMap::get`). -/
def mapFind {K V : Type} [DecidableEq K] (k : K) : List (K × V) → Option V
  | [] => none
  | (k', v) :: rest => if k = k' then some v else mapFind k rest

/-- Insertion into an association list, replacing the value at an existing
key (`BTreeMap::insert`), preserving key positions. -/
def mapInsert {K V : Type} [DecidableEq K] (k : K) (v : V) : List (K × V) → List (K × V)
  | [] => [(k, v)]
  | (k', v') :: rest => if k = k' then (k, v) :: rest else (k', v') :: mapInsert k v rest

/-- Insertion into a duplicate-free list viewed as a set (`BTreeSet::insert`). -/
def setInsert {K : Type} [DecidableEq K] (k : K) (s : List K) : List K :=
  if k ∈ s then s else s ++ [k]

/-- The reserved ignore marker for schema names (`starts_with("UNUSED")`). -/
def ignoredSchemaMarker : Symbol := "UNUSED"

/-- The incremental state of the model builder: the diagnostics emitted so far
through the environment, and the symbol tables of `ModelBuilder`. -/
structure State where
  diags : List Diag
  spec_fun_table : List (QualifiedSymbol × List SpecOrBuiltinFunEntry)
  spec_var_table : List (QualifiedSymbol × SpecVarEntry)
  spec_schema_table : List (QualifiedSymbol × SpecSchemaEntry)
  unused_schema_set : List QualifiedSymbol
  struct_table : List (QualifiedSymbol × StructEntry)
  reverse_struct_table : List ((ModuleId × StructId) × QualifiedSymbol)
  fun_table : List (QualifiedSymbol × FunEntry)
  const_table : List (QualifiedSymbol × ConstEntry)

/-- The builder state with all tables empty and no diagnostics. (In the
source, `ModelBuilder::new` additionally runs `builtins::declare_builtins`,
which registers spec-function and constant entries only; the claims below are
stated relative to an arbitrary or empty starting state.) -/
def State.initial : State := ⟨[], [], [], [], [], [], [], [], []⟩

/-- `GlobalEnv::error`: append an error-severity diagnostic. -/
def State.error (s : State) (l : Loc) (m : Msg) : State :=
  { s with diags := s.diags ++ [⟨Severity.Error, l, m⟩] }

/-- `GlobalEnv::diag(Severity::Note, ..)` via `ModelBuilder::note`. -/
def State.note (s : State) (l : Loc) (m : Msg) : State :=
  { s with diags := s.diags ++ [⟨Severity.Note, l, m⟩] }

/-- `ModelBuilder::define_spec_or_builtin_fun`: report a name clash when a
Move function of the same qualified name exists, then append the entry to the
name's overload list. -/
def define_spec_or_builtin_fun (s : State) (name : QualifiedSymbol)
    (entry : SpecOrBuiltinFunEntry) : State :=
  let s1 := if (mapFind name s.fun_table).isSome
    then s.error entry.loc (.nameClash name.symbol)
    else s
  { s1 with
    spec_fun_table :=
      mapInsert name (((mapFind name s1.spec_fun_table).getD []) ++ [entry])
        s1.spec_fun_table }

/-- `ModelBuilder::define_spec_var`: insert (replacing any previous entry);
on a duplicate, report an error at the new location and a note at the old. -/
def define_spec_var (s : State) (loc : Loc) (name : QualifiedSymbol)
    (module_id : ModuleId) (var_id : SpecVarId) (type_params : List TypeParameter)
    (type_ : Type') : State :=
  let entry : SpecVarEntry := ⟨loc, module_id, var_id, type_params, type_⟩
  let old := mapFind name s.spec_var_table
  let s1 := { s with spec_var_table := mapInsert name entry s.spec_var_table }
  match old with
  | some o => (s1.error loc (.duplicateDecl name)).note o.loc (.previousDecl name)
  | none => s1

/-- `ModelBuilder::define_spec_schema`: insert (replacing any previous entry);
on a duplicate, report an error at the new and at the old location; in every
case add the name to the unused-schema set. -/
def define_spec_schema (s : State) (loc : Loc) (name : QualifiedSymbol)
    (module_id : ModuleId) (type_params : List TypeParameter)
    (vars : List Parameter) : State :=
  let entry : SpecSchemaEntry :=
    ⟨loc, name, module_id, type_params, vars, Spec.empty, [], Spec.empty⟩
  let old := mapFind name s.spec_schema_table
  let s1 := { s with spec_schema_table := mapInsert name entry s.spec_schema_table }
  let s2 := match old with
    | some o => (s1.error loc (.duplicateDecl name)).error o.loc (.previousDecl name)
    | none => s1
  { s2 with unused_schema_set := setInsert name s2.unused_schema_set }

/-- `ModelBuilder::define_struct`: insert the entry under its qualified name
and record the reverse mapping from `(module_id, struct_id)` to the name. -/
def define_struct (s : State) (loc : Loc) (attributes : List Attribute)
    (name : QualifiedSymbol) (module_id : ModuleId) (struct_id : StructId)
    (abilities : AbilitySet) (type_params : List TypeParameter)
    (fields : Option (List (Symbol × (Loc × Nat × Type')))) : State :=
  let entry : StructEntry :=
    ⟨loc, module_id, struct_id, type_params, abilities, fields, attributes⟩
  { s with
    struct_table := mapInsert name entry s.struct_table,
    reverse_struct_table := mapInsert (module_id, struct_id) name s.reverse_struct_table }

/-- `ModelBuilder::define_fun`: plain insertion, silently replacing. -/
def define_fun (s : State) (name : QualifiedSymbol) (entry : FunEntry) : State :=
  { s with fun_table := mapInsert name entry s.fun_table }

/-- `ModelBuilder::define_const`: plain insertion, silently replacing. -/
def define_const (s : State) (name : QualifiedSymbol) (entry : ConstEntry) : State :=
  { s with const_table := mapInsert name entry s.const_table }

/-- Modelled from the spec: `TypeParameter::vec_to_formals` (outside the
provided sources) turns a declared type-parameter list into the list of
formal type-parameter references, one per declared position. -/
def vec_to_formals (tps : List TypeParameter) : List Type' :=
  (List.range tps.length).map Type'.TypeParameter

/-- `ModelBuilder::lookup_type`: resolve a qualified name to a struct type
built from the entry, or report one "undeclared" error and return the
sentinel error type. The returned state carries any emitted diagnostic. -/
def lookup_type (s : State) (loc : Loc) (name : QualifiedSymbol) : State × Type' :=
  match mapFind name s.struct_table with
  | some e => (s, Type'.Struct e.module_id e.struct_id (vec_to_formals e.type_params))
  | none => (s.error loc (.undeclared name), Type'.Error)

/-- `ModelBuilder::lookup_struct_entry`: reverse lookup from a
`(module_id, struct_id)` pair to the struct entry; `none` models the
`expect("invalid Type::Struct")` panic. -/
def lookup_struct_entry (s : State) (mid : ModuleId) (sid : StructId) :
    Option StructEntry :=
  match mapFind (mid, sid) s.reverse_struct_table with
  | some name => mapFind name s.struct_table
  | none => none

/-- `ModelBuilder::get_struct_sig`: type-parameter kinds and abilities of a
registered struct; `none` models the panic on an unknown id pair. -/
def get_struct_sig (s : State) (mid : ModuleId) (sid : StructId) :
    Option (List TypeParameterKind × AbilitySet) :=
  (lookup_struct_entry s mid sid).map (fun e => (e.type_params.map (·.kind), e.abilities))

/-- Modelled from the spec: `ty::gen_get_ty_param_kinds` (outside the provided
sources) resolves a type-parameter index to its declared kind. -/
def get_ty_param_kinds (tps : List TypeParameter) (i : Nat) : TypeParameterKind :=
  match tps[i]? with
  | some tp => tp.kind
  | none => ⟨AbilitySet.all, false⟩

/-- Modelled from the spec: `ty::is_phantom_type_arg` (outside the provided
sources) holds exactly when the type is a bare type-parameter reference whose
declared kind is phantom-flagged. -/
def is_phantom_type_arg (kinds : Nat → TypeParameterKind) : Type' → Bool
  | .TypeParameter i => (kinds i).is_phantom
  | _ => false

mutual

/-- Modelled from the spec: ability inference (`ty::infer_abilities`, outside
the provided sources) walks the type structurally; a type-parameter reference
contributes its declared bound, a struct reference combines the struct's
declared abilities with those inferred for its non-phantom argument
positions. -/
def infer_abilities (kinds : Nat → TypeParameterKind)
    (sig : ModuleId → StructId → Option (List TypeParameterKind × AbilitySet)) :
    Type' → AbilitySet
  | .Primitive _ => AbilitySet.all
  | .TypeParameter i => (kinds i).abilities
  | .Struct mid sid args =>
    match sig mid sid with
    | some (pks, ab) => AbilitySet.inter ab (infer_args_abilities kinds sig pks args)
    | none => AbilitySet.all
  | .Reference _ _ => ⟨true, true, false, false⟩
  | .Error => AbilitySet.all

def infer_args_abilities (kinds : Nat → TypeParameterKind)
    (sig : ModuleId → StructId → Option (List TypeParameterKind × AbilitySet)) :
    List TypeParameterKind → List Type' → AbilitySet
  | _, [] => AbilitySet.all
  | [], _ :: _ => AbilitySet.all
  | pk :: pks, t :: ts =>
    let rest := infer_args_abilities kinds sig pks ts
    if pk.is_phantom then rest
    else AbilitySet.inter (infer_abilities kinds sig t) rest

end

mutual

/-- Modelled from the spec: the violation count of the recursive ability
check (`ty::infer_and_check_abilities`, outside the provided sources): at
every struct reference, each argument whose inferred abilities do not cover
the corresponding parameter's required abilities is one violation, and the
walk continues into the arguments. -/
def count_ability_violations (kinds : Nat → TypeParameterKind)
    (sig : ModuleId → StructId → Option (List TypeParameterKind × AbilitySet)) :
    Type' → Nat
  | .Struct mid sid args =>
    (match sig mid sid with
     | some (pks, _) =>
       ((pks.zip args).filter
         (fun pa => !(AbilitySet.subset pa.1.abilities (infer_abilities kinds sig pa.2)))).length
     | none => 0)
      + count_ability_violations_list kinds sig args
  | .Reference _ t => count_ability_violations kinds sig t
  | _ => 0

def count_ability_violations_list (kinds : Nat → TypeParameterKind)
    (sig : ModuleId → StructId → Option (List TypeParameterKind × AbilitySet)) :
    List Type' → Nat
  | [] => 0
  | t :: ts =>
    count_ability_violations kinds sig t + count_ability_violations_list kinds sig ts

end

/-- `ModelBuilder::check_instantiation`: run the ability check over a type,
reporting each violation through `self.error` at the given location. -/
def check_instantiation_diags (s : State) (ty : Type') (tps : List TypeParameter)
    (loc : Loc) : List Diag :=
  List.replicate (count_ability_violations (get_ty_param_kinds tps) (get_struct_sig s) ty)
    ⟨Severity.Error, loc, Msg.abilityViolation⟩

/-- `ModelBuilder::ability_check_struct_def`: for a struct entry with a field
map, check each field's type against the struct's type parameters and reject
bare phantom type parameters in field position; the result is the list of
diagnostics emitted, in order. A field-map-less (native/external) entry
checks nothing. -/
def ability_check_struct_def (s : State) (entry : StructEntry) : List Diag :=
  match entry.fields with
  | some fs =>
    (fs.map (fun f =>
      check_instantiation_diags s f.2.2.2 entry.type_params f.2.1
        ++ (if is_phantom_type_arg (get_ty_param_kinds entry.type_params) f.2.2.2
            then [⟨Severity.Error, f.2.1, Msg.phantomFieldError⟩]
            else []))).flatten
  | none => []

/-- One step of `ModelBuilder::warn_unused_schemas`, iterating over the
unused-schema set: each name's schema entry is looked up (`none` models the
`expect("schema defined")` panic) and a note is emitted when the owning
module is a target and the simple name does not start with the reserved
`UNUSED` marker. -/
def warn_unused_schemas_over (s : State) (is_target : ModuleId → Bool) :
    List QualifiedSymbol → Option (List Diag)
  | [] => some []
  | n :: rest =>
    match mapFind n s.spec_schema_table, warn_unused_schemas_over s is_target rest with
    | some e, some ds =>
      some ((if is_target e.module_id && !(String.startsWith n.symbol ignoredSchemaMarker)
             then [⟨Severity.Note, e.loc, Msg.unusedSchema n⟩]
             else []) ++ ds)
    | _, _ => none

/-- `ModelBuilder::warn_unused_schemas` over the whole unused-schema set. -/
def warn_unused_schemas (s : State) (is_target : ModuleId → Bool) : Option (List Diag) :=
  warn_unused_schemas_over s is_target s.unused_schema_set

/-- Whether `warn_unused_schemas` warns about a given schema name: its entry
exists, its owning module is a target, and its simple name does not start
with the reserved marker. -/
def schema_warned (s : State) (is_target : ModuleId → Bool) (n : QualifiedSymbol) : Bool :=
  match mapFind n s.spec_schema_table with
  | some e => is_target e.module_id && !(String.startsWith n.symbol ignoredSchemaMarker)
  | none => false

/-- `AnyFunEntry::get_signature`. -/
def AnyFunEntry.get_signature :
    AnyFunEntry → List TypeParameter × List Parameter × Type'
  | .SpecOrBuiltin e => (e.type_params, e.params, e.result_type)
  | .UserFun e => (e.type_params, e.params, e.result_type)

/-- `AnyFunEntry::get_operation`. -/
def AnyFunEntry.get_operation : AnyFunEntry → Operation
  | .SpecOrBuiltin e => e.oper
  | .UserFun e => .MoveFunction e.module_id e.fun_id

/-- Whether an operation is one of the equality operations. -/
def Operation.is_equality : Operation → Bool
  | .Eq => true
  | .Neq => true
  | _ => false

/-- `AnyFunEntry::is_equality_on_ref`. The `&&` of the source short-circuits,
so the first value parameter is indexed only after the operation matched
`Eq`/`Neq`; `none` models the out-of-bounds panic of `[0]` there. -/
def AnyFunEntry.is_equality_on_ref (e : AnyFunEntry) : Option Bool :=
  match e.get_operation with
  | .Eq | .Neq => (e.get_signature.2.1[0]?).map (fun p => p.ty.is_reference)
  | _ => some false

/-- `AnyFunEntry::is_equality_on_non_ref`, same indexing discipline. -/
def AnyFunEntry.is_equality_on_non_ref (e : AnyFunEntry) : Option Bool :=
  match e.get_operation with
  | .Eq | .Neq => (e.get_signature.2.1[0]?).map (fun p => !p.ty.is_reference)
  | _ => some false


/-- One recorded call to `define_struct`, used to speak about sequences of
struct registrations. -/
structure StructDefCall where
  loc : Loc
  attributes : List Attribute
  name : QualifiedSymbol
  module_id : ModuleId
  struct_id : StructId
  abilities : AbilitySet
  type_params : List TypeParameter
  fields : Option (List (Symbol × (Loc × Nat × Type')))

/-- Run a sequence of `define_struct` calls, left to right. -/
def apply_define_structs (s : State) : List StructDefCall → State
  | [] => s
  | c :: cs =>
    apply_define_structs
      (define_struct s c.loc c.attributes c.name c.module_id c.struct_id
        c.abilities c.type_params c.fields) cs

/-- Mutual consistency of the struct table and the reverse struct table: every
struct entry's id pair reverse-maps to its name and round-trips through
`lookup_struct_entry` to the identical entry, and every reverse entry is
backed by a struct entry carrying exactly that id pair. -/
def struct_tables_consistent (s : State) : Prop :=
  (∀ name e, mapFind name s.struct_table = some e →
    mapFind (e.module_id, e.struct_id) s.reverse_struct_table = some name ∧
    lookup_struct_entry s e.module_id e.struct_id = some e) ∧
  (∀ mid sid name, mapFind (mid, sid) s.reverse_struct_table = some name →
    ∃ e, mapFind name s.struct_table = some e ∧ e.module_id = mid ∧ e.struct_id = sid)

/-- Every struct-table entry stems from one of the given calls (same name and
id pair). -/
def struct_table_from (calls : List StructDefCall) (s : State) : Prop :=
  ∀ name e, mapFind name s.struct_table = some e →
    ∃ c, c ∈ calls ∧ c.name = name ∧ c.module_id = e.module_id ∧ c.struct_id = e.struct_id

/-- A sequence of calls assigns id pairs compatibly with qualified names: two
calls agree on the name exactly when they agree on the id pair. -/
def calls_id_compatible (calls : List StructDefCall) : Prop :=
  ∀ c ∈ calls, ∀ c' ∈ calls,
    (c.name = c'.name ↔ (c.module_id = c'.module_id ∧ c.struct_id = c'.struct_id))

/-- Number of unused-schema notes for a given schema name in a diagnostic
list. -/
def countUnusedNote (n : QualifiedSymbol) (ds : List Diag) : Nat :=
  (ds.filter (fun d => decide (d.msg = Msg.unusedSchema n))).length

/-- Concrete fixtures for the witnesses and counterexamples below. -/
def mnameM : ModuleName := ⟨1, "M"⟩

def qsymA : QualifiedSymbol := ⟨mnameM, "A"⟩

def qsymB : QualifiedSymbol := ⟨mnameM, "B"⟩

def qsymG : QualifiedSymbol := ⟨mnameM, "g"⟩

def qsymUnusedLocal : QualifiedSymbol := ⟨mnameM, "UNUSEDLocal"⟩

def qsymDepSchema : QualifiedSymbol := ⟨⟨2, "Dep"⟩, "S"⟩

/-- A target predicate making module 1 a target and module 2 a dependency. -/
def warnTarget : ModuleId → Bool := fun mid => mid == 1

/-- A state with three schemas: a target-module schema, a target-module
schema carrying the reserved marker, and a dependency-module schema. -/
def warnExampleState : State :=
  define_spec_schema (define_spec_schema (define_spec_schema State.initial 1 qsymA 1 [] [])
    2 qsymUnusedLocal 1 [] []) 3 qsymDepSchema 2 [] []

def sampleFunEntry : FunEntry :=
  ⟨0, 0, 1, 0, .Private, false, .Regular, [], [], .Primitive 0, [], []⟩

def sampleSpecFunEntry : SpecOrBuiltinFunEntry :=
  ⟨5, .SpecFunction 1 0, [], [], [], .Primitive 0, .Spec⟩

def sampleSpecFunEntry2 : SpecOrBuiltinFunEntry :=
  ⟨6, .SpecFunction 1 1, [], [], [], .Primitive 1, .Spec⟩

def sampleSpecFunEntry3 : SpecOrBuiltinFunEntry :=
  ⟨7, .SpecFunction 1 2, [], [], [], .Primitive 2, .Spec⟩

/-- Calls registering two structs and re-registering the first, with id pairs
compatible with the names. -/
def exampleStructCalls : List StructDefCall :=
  [⟨0, [], qsymA, 1, 0, AbilitySet.empty, [], none⟩,
   ⟨1, [], qsymB, 1, 1, AbilitySet.all, [], none⟩,
   ⟨2, [], qsymA, 1, 0, AbilitySet.empty, [], none⟩]

/-- A phantom type parameter and a struct entry with one field of that bare
parameter type and one ordinary field. -/
def phantomParam : TypeParameter := ⟨"T", ⟨AbilitySet.all, true⟩, 0⟩

def examplePhantomStruct : StructEntry :=
  ⟨0, 1, 0, [phantomParam], AbilitySet.empty,
    some [("f", (3, 0, Type'.TypeParameter 0)), ("g", (4, 1, Type'.Primitive 0))], []⟩

theorem mapFind_mapInsert_self {K V : Type} [DecidableEq K] (k : K) (v : V)
    (l : List (K × V)) : mapFind k (mapInsert k v l) = some v := by
  induction l with
  | nil => simp [mapFind, mapInsert]
  | cons hd tl ih =>
    rcases hd with ⟨k', v'⟩
    by_cases h : k = k'
    · subst h
      simp [mapInsert, mapFind]
    · simp [mapInsert, mapFind, h, ih]

theorem mapFind_mapInsert_ne {K V : Type} [DecidableEq K] {k k' : K} (v : V)
    (l : List (K × V)) (h : k ≠ k') : mapFind k (mapInsert k' v l) = mapFind k l := by
  induction l with
  | nil => simp [mapFind, mapInsert, h]
  | cons hd tl ih =>
    rcases hd with ⟨k2, v2⟩
    by_cases h1 : k' = k2
    · subst h1
      simp [mapInsert, mapFind, h]
    · by_cases h2 : k = k2
      · subst h2
        simp [mapInsert, mapFind, h1]
      · simp [mapInsert, mapFind, h1, h2, ih]



/-- C4 amended (also the core of C3's table behaviour): `define_spec_var`
always stores the new entry under the name — the new declaration displaces
any previous one — and on a duplicate it reports an error at the new
location and a note at the old location. -/
theorem define_spec_var_replaces (s : State) (loc : Loc) (name : QualifiedSymbol)
    (mid : ModuleId) (vid : SpecVarId) (tps : List TypeParameter) (ty : Type') :
    mapFind name (define_spec_var s loc name mid vid tps ty).spec_var_table
      = some ⟨loc, mid, vid, tps, ty⟩ ∧
    (∀ old, mapFind name s.spec_var_table = some old →
      (define_spec_var s loc name mid vid tps ty).diags
        = s.diags ++ [⟨Severity.Error, loc, Msg.duplicateDecl name⟩,
            ⟨Severity.Note, old.loc, Msg.previousDecl name⟩]) := by
  constructor
  · unfold define_spec_var
    cases h : mapFind name s.spec_var_table <;>
      simp [h, State.error, State.note, mapFind_mapInsert_self]
  · intro old hold
    simp [define_spec_var, hold, State.error, State.note]

/-- C4 counterexample: after a duplicate declaration of the same spec
variable, the table does not retain the first entry. -/
theorem spec_var_old_entry_not_retained :
    mapFind qsymA (define_spec_var (define_spec_var State.initial 1 qsymA 1 0 []
        (.Primitive 0)) 2 qsymA 1 0 [] (.Primitive 1)).spec_var_table
      ≠ some ⟨1, 1, 0, [], .Primitive 0⟩ := by
  have h2 : mapFind qsymA (define_spec_var (define_spec_var State.initial 1 qsymA 1 0 []
      (.Primitive 0)) 2 qsymA 1 0 [] (.Primitive 1)).spec_var_table
      = some ⟨2, 1, 0, [], .Primitive 1⟩ := rfl
  rw [h2]
  intro hc
  injection hc with hc
  have := congrArg SpecVarEntry.loc hc
  simp at this

/-- C4 witness for the amended theorem, instantiated at a duplicate
declaration over the initial state. -/
theorem define_spec_var_replaces_witness :
    mapFind qsymA (define_spec_var State.initial 1 qsymA 1 0 [] (.Primitive 0)).spec_var_table
      = some ⟨1, 1, 0, [], Type'.Primitive 0⟩ ∧
    (define_spec_var (define_spec_var State.initial 1 qsymA 1 0 [] (.Primitive 0))
        2 qsymA 1 0 [] (.Primitive 1)).diags
      = [⟨Severity.Error, 2, Msg.duplicateDecl qsymA⟩,
         ⟨Severity.Note, 1, Msg.previousDecl qsymA⟩] := by
  constructor
  · exact (define_spec_var_replaces State.initial 1 qsymA 1 0 [] (.Primitive 0)).1
  · have h := (define_spec_var_replaces (define_spec_var State.initial 1 qsymA 1 0 []
      (.Primitive 0)) 2 qsymA 1 0 [] (.Primitive 1)).2
      ⟨1, 1, 0, [], .Primitive 0⟩ rfl
    simpa using h

/-- C3: a duplicate spec-variable declaration emits exactly one error at the
new location followed by one note at the old location, and the subsequent
lookup of the name returns the second declaration's entry. -/
theorem define_spec_var_duplicate_diagnostics (s : State) (name : QualifiedSymbol)
    (l1 l2 : Loc) (m1 m2 : ModuleId) (v1 v2 : SpecVarId)
    (tp1 tp2 : List TypeParameter) (t1 t2 : Type')
    (h : mapFind name s.spec_var_table = none) :
    (define_spec_var (define_spec_var s l1 name m1 v1 tp1 t1) l2 name m2 v2 tp2 t2).diags
      = s.diags ++ [⟨Severity.Error, l2, Msg.duplicateDecl name⟩,
          ⟨Severity.Note, l1, Msg.previousDecl name⟩] ∧
    mapFind name
        (define_spec_var (define_spec_var s l1 name m1 v1 tp1 t1) l2 name m2 v2 tp2 t2).spec_var_table
      = some ⟨l2, m2, v2, tp2, t2⟩ := by
  have h1 : define_spec_var s l1 name m1 v1 tp1 t1
      = { s with spec_var_table := mapInsert name ⟨l1, m1, v1, tp1, t1⟩ s.spec_var_table } := by
    simp [define_spec_var, h]
  rw [h1]
  constructor
  · simp [define_spec_var, mapFind_mapInsert_self, State.error, State.note]
  · unfold define_spec_var
    simp [mapFind_mapInsert_self, State.error, State.note]

/-- C3 witness: the duplicate-declaration scenario instantiated over the
initial state. -/
theorem define_spec_var_duplicate_diagnostics_witness :
    mapFind qsymB State.initial.spec_var_table = none ∧
    ((define_spec_var (define_spec_var State.initial 1 qsymB 1 0 [] (.Primitive 0))
        2 qsymB 1 1 [] (.Primitive 1)).diags
      = [⟨Severity.Error, 2, Msg.duplicateDecl qsymB⟩,
         ⟨Severity.Note, 1, Msg.previousDecl qsymB⟩] ∧
     mapFind qsymB (define_spec_var (define_spec_var State.initial 1 qsymB 1 0 []
         (.Primitive 0)) 2 qsymB 1 1 [] (.Primitive 1)).spec_var_table
      = some ⟨2, 1, 1, [], .Primitive 1⟩) := by
  refine ⟨rfl, ?_⟩
  have h := define_spec_var_duplicate_diagnostics State.initial qsymB 1 2 1 1 0 1 [] []
    (.Primitive 0) (.Primitive 1) rfl
  simpa using h

/-- C2 amended: when the Move function is declared first, the later spec
function declaration produces the name-clash error exactly once; in the
reverse order (spec function first) no name-clash error is produced at
all. -/
theorem name_clash_only_when_fun_first (s : State) (name : QualifiedSymbol)
    (fe : FunEntry) (se : SpecOrBuiltinFunEntry)
    (h : mapFind name s.fun_table = none) :
    (define_spec_or_builtin_fun (define_fun s name fe) name se).diags
      = s.diags ++ [⟨Severity.Error, se.loc, Msg.nameClash name.symbol⟩] ∧
    (define_fun (define_spec_or_builtin_fun s name se) name fe).diags = s.diags := by
  constructor
  · simp [define_fun, define_spec_or_builtin_fun, mapFind_mapInsert_self, State.error]
  · simp [define_fun, define_spec_or_builtin_fun, h, State.error]

/-- C2 counterexample: with the specification function `g` declared before
the Move function `g`, no name-clash error is emitted at all, refuting
"exactly once regardless of which of the two is declared first". -/
theorem no_name_clash_when_spec_fun_first :
    ¬ (((define_fun (define_spec_or_builtin_fun State.initial qsymG sampleSpecFunEntry)
          qsymG sampleFunEntry).diags.filter
        (fun d => decide (d.msg = Msg.nameClash qsymG.symbol))).length = 1) := by
  decide

/-- C2 witness instantiating the amended theorem over the initial state. -/
theorem name_clash_only_when_fun_first_witness :
    mapFind qsymG State.initial.fun_table = none ∧
    ((define_spec_or_builtin_fun (define_fun State.initial qsymG sampleFunEntry)
        qsymG sampleSpecFunEntry).diags
      = [⟨Severity.Error, 5, Msg.nameClash qsymG.symbol⟩] ∧
     (define_fun (define_spec_or_builtin_fun State.initial qsymG sampleSpecFunEntry)
        qsymG sampleFunEntry).diags = []) := by
  refine ⟨rfl, ?_⟩
  have h := name_clash_only_when_fun_first State.initial qsymG sampleFunEntry
    sampleSpecFunEntry rfl
  simpa [sampleSpecFunEntry, qsymG] using h


/-- C5: `define_spec_or_builtin_fun` never overwrites — every call appends
one entry to the name's ordered overload list — and three declarations of a
spec function with no runtime function of that name yield the three-element
overload list in declaration order with no diagnostic emitted. -/
theorem spec_fun_overload_accumulation (s : State) (name : QualifiedSymbol)
    (e1 e2 e3 : SpecOrBuiltinFunEntry)
    (hf : mapFind name s.fun_table = none)
    (hs : mapFind name s.spec_fun_table = none) :
    (∀ (t : State) (e : SpecOrBuiltinFunEntry),
      mapFind name (define_spec_or_builtin_fun t name e).spec_fun_table
        = some (((mapFind name t.spec_fun_table).getD []) ++ [e])) ∧
    mapFind name (define_spec_or_builtin_fun (define_spec_or_builtin_fun
        (define_spec_or_builtin_fun s name e1) name e2) name e3).spec_fun_table
      = some [e1, e2, e3] ∧
    (define_spec_or_builtin_fun (define_spec_or_builtin_fun
        (define_spec_or_builtin_fun s name e1) name e2) name e3).diags = s.diags := by
  have step : ∀ (t : State) (e : SpecOrBuiltinFunEntry),
      mapFind name t.fun_table = none →
      define_spec_or_builtin_fun t name e
        = { t with
            spec_fun_table :=
              mapInsert name (((mapFind name t.spec_fun_table).getD []) ++ [e])
                t.spec_fun_table } := by
    intro t e ht
    simp [define_spec_or_builtin_fun, ht]
  refine ⟨?_, ?_⟩
  · intro t e
    unfold define_spec_or_builtin_fun
    by_cases hc : (mapFind name t.fun_table).isSome <;>
      simp [hc, State.error, mapFind_mapInsert_self]
  · rw [step s e1 hf]
    rw [step { s with
      spec_fun_table :=
        mapInsert name ((mapFind name s.spec_fun_table).getD [] ++ [e1])
          s.spec_fun_table } e2 hf]
    rw [step { s with
      spec_fun_table :=
        mapInsert name ((mapFind name (mapInsert name
              ((mapFind name s.spec_fun_table).getD [] ++ [e1]) s.spec_fun_table)).getD []
            ++ [e2])
          (mapInsert name ((mapFind name s.spec_fun_table).getD [] ++ [e1])
            s.spec_fun_table) } e3 hf]
    simp [hs, mapFind_mapInsert_self]

/-- C5 witness: three overloads of one spec-function name over the initial
state. -/
theorem spec_fun_overload_accumulation_witness :
    mapFind qsymB State.initial.fun_table = none ∧
    mapFind qsymB State.initial.spec_fun_table = none ∧
    (mapFind qsymB (define_spec_or_builtin_fun (define_spec_or_builtin_fun
        (define_spec_or_builtin_fun State.initial qsymB sampleSpecFunEntry)
          qsymB sampleSpecFunEntry2) qsymB sampleSpecFunEntry3).spec_fun_table
      = some [sampleSpecFunEntry, sampleSpecFunEntry2, sampleSpecFunEntry3] ∧
     (define_spec_or_builtin_fun (define_spec_or_builtin_fun
        (define_spec_or_builtin_fun State.initial qsymB sampleSpecFunEntry)
          qsymB sampleSpecFunEntry2) qsymB sampleSpecFunEntry3).diags = []) := by
  refine ⟨rfl, rfl, ?_⟩
  have h := spec_fun_overload_accumulation State.initial qsymB sampleSpecFunEntry
    sampleSpecFunEntry2 sampleSpecFunEntry3 rfl rfl
  exact ⟨h.2.1, h.2.2⟩

/-- C7: `lookup_type` on a declared struct name returns the struct type built
from the entry's module id, struct id and formal type parameters without
touching the diagnostics, while on an undeclared name it appends exactly one
undeclared error and returns the sentinel error type. -/
theorem lookup_type_behavior (s : State) (loc : Loc) (name : QualifiedSymbol) :
    (∀ e, mapFind name s.struct_table = some e →
      lookup_type s loc name
        = (s, Type'.Struct e.module_id e.struct_id (vec_to_formals e.type_params))) ∧
    (mapFind name s.struct_table = none →
      lookup_type s loc name
        = ({ s with diags := s.diags ++ [⟨Severity.Error, loc, Msg.undeclared name⟩] },
           Type'.Error)) := by
  constructor
  · intro e he
    simp [lookup_type, he]
  · intro he
    simp [lookup_type, he, State.error]

/-- C7 witness: a state with one registered struct, looked up under its name
and under an unregistered name. -/
theorem lookup_type_behavior_witness :
    mapFind qsymA (define_struct State.initial 0 [] qsymA 1 0 AbilitySet.empty []
        none).struct_table
      = some ⟨0, 1, 0, [], AbilitySet.empty, none, []⟩ ∧
    mapFind qsymB (define_struct State.initial 0 [] qsymA 1 0 AbilitySet.empty []
        none).struct_table = none ∧
    (lookup_type (define_struct State.initial 0 [] qsymA 1 0 AbilitySet.empty [] none) 7 qsymA
      = (define_struct State.initial 0 [] qsymA 1 0 AbilitySet.empty [] none,
         Type'.Struct 1 0 []) ∧
     lookup_type (define_struct State.initial 0 [] qsymA 1 0 AbilitySet.empty [] none) 7 qsymB
      = ({ define_struct State.initial 0 [] qsymA 1 0 AbilitySet.empty [] none with
            diags := [⟨Severity.Error, 7, Msg.undeclared qsymB⟩] },
         Type'.Error)) := by
  refine ⟨rfl, rfl, ?_, ?_⟩
  · have h := (lookup_type_behavior (define_struct State.initial 0 [] qsymA 1 0
      AbilitySet.empty [] none) 7 qsymA).1 ⟨0, 1, 0, [], AbilitySet.empty, none, []⟩ rfl
    simpa [vec_to_formals] using h
  · have h := (lookup_type_behavior (define_struct State.initial 0 [] qsymA 1 0
      AbilitySet.empty [] none) 7 qsymB).2 rfl
    simpa [define_struct, State.initial] using h

/-- C10: after matching an equality operation, the two equality accessors
index the first value parameter, so for an `Eq`/`Neq` entry they are defined
exactly when the parameter list is non-empty (the index is out of bounds
otherwise), while for any other operation they return `false` without
touching the parameter list. -/
theorem equality_accessors_first_param_indexing (e : AnyFunEntry) :
    (e.get_operation.is_equality = true →
      ((e.is_equality_on_ref.isSome ↔ e.get_signature.2.1 ≠ []) ∧
       (e.is_equality_on_non_ref.isSome ↔ e.get_signature.2.1 ≠ []))) ∧
    (e.get_operation.is_equality = false →
      (e.is_equality_on_ref = some false ∧ e.is_equality_on_non_ref = some false)) := by
  rcases e with e | e
  · rcases e with ⟨l, op, tps, cs, ps, rt, vis⟩
    cases op <;>
      simp [AnyFunEntry.get_operation, AnyFunEntry.get_signature, Operation.is_equality,
        AnyFunEntry.is_equality_on_ref, AnyFunEntry.is_equality_on_non_ref] <;>
      cases ps <;> simp
  · simp [AnyFunEntry.get_operation, AnyFunEntry.get_signature, Operation.is_equality,
      AnyFunEntry.is_equality_on_ref, AnyFunEntry.is_equality_on_non_ref]

/-- C10 witness: an `Eq` entry with an empty parameter list is undefined
(models the out-of-bounds panic), one with a parameter is defined, and a
non-equality entry returns `false` despite its empty parameter list. -/
theorem equality_accessors_first_param_indexing_witness :
    ((AnyFunEntry.SpecOrBuiltin ⟨0, .Eq, [], [], [], .Primitive 0, .Spec⟩).get_operation.is_equality
        = true ∧
     ¬ (AnyFunEntry.SpecOrBuiltin ⟨0, .Eq, [], [], [], .Primitive 0,
          .Spec⟩).is_equality_on_ref.isSome) ∧
    ((AnyFunEntry.SpecOrBuiltin ⟨0, .Eq, [], [],
        [⟨"x", .Reference false (.Primitive 0), 0⟩], .Primitive 0,
        .Spec⟩).is_equality_on_ref.isSome) ∧
    ((AnyFunEntry.UserFun sampleFunEntry).get_operation.is_equality = false ∧
     (AnyFunEntry.UserFun sampleFunEntry).is_equality_on_ref = some false ∧
     (AnyFunEntry.UserFun sampleFunEntry).is_equality_on_non_ref = some false) := by
  refine ⟨⟨rfl, ?_⟩, ?_, ?_⟩
  · have h := ((equality_accessors_first_param_indexing (AnyFunEntry.SpecOrBuiltin
      ⟨0, .Eq, [], [], [], .Primitive 0, .Spec⟩)).1 rfl).1
    simp only [AnyFunEntry.get_signature] at h
    simp [h]
  · have h := ((equality_accessors_first_param_indexing (AnyFunEntry.SpecOrBuiltin
      ⟨0, .Eq, [], [], [⟨"x", .Reference false (.Primitive 0), 0⟩], .Primitive 0,
        .Spec⟩)).1 rfl).1
    simp only [AnyFunEntry.get_signature] at h
    simp [h]
  · have h := (equality_accessors_first_param_indexing (AnyFunEntry.UserFun sampleFunEntry)).2 rfl
    exact ⟨rfl, h.1, h.2⟩


theorem mem_setInsert {K : Type} [DecidableEq K] (a k : K) (l : List K) :
    a ∈ setInsert k l ↔ a = k ∨ a ∈ l := by
  unfold setInsert
  by_cases h : k ∈ l
  · simp only [if_pos h]
    constructor
    · exact Or.inr
    · rintro (rfl | ha)
      · exact h
      · exact ha
  · simp [if_neg h, or_comm]

/-- C6: re-declaring a spec schema reports an error at the new and at the old
location, the new entry replaces the old one, the name is (re)inserted into
the unused-schema set in every case, and the inclusion of the unused-schema
set in the schema table's keys is preserved. -/
theorem define_spec_schema_duplicate_behavior (s : State) (loc : Loc)
    (name : QualifiedSymbol) (mid : ModuleId) (tps : List TypeParameter)
    (vars : List Parameter) :
    (∀ old, mapFind name s.spec_schema_table = some old →
      (define_spec_schema s loc name mid tps vars).diags
        = s.diags ++ [⟨Severity.Error, loc, Msg.duplicateDecl name⟩,
            ⟨Severity.Error, old.loc, Msg.previousDecl name⟩]) ∧
    mapFind name (define_spec_schema s loc name mid tps vars).spec_schema_table
      = some ⟨loc, name, mid, tps, vars, Spec.empty, [], Spec.empty⟩ ∧
    name ∈ (define_spec_schema s loc name mid tps vars).unused_schema_set ∧
    ((∀ n ∈ s.unused_schema_set, (mapFind n s.spec_schema_table).isSome) →
      ∀ n ∈ (define_spec_schema s loc name mid tps vars).unused_schema_set,
        (mapFind n (define_spec_schema s loc name mid tps vars).spec_schema_table).isSome) := by
  refine ⟨?_, ?_, ?_, ?_⟩
  · intro old hold
    simp [define_spec_schema, hold, State.error]
  · unfold define_spec_schema
    cases h : mapFind name s.spec_schema_table <;>
      simp [h, State.error, mapFind_mapInsert_self]
  · unfold define_spec_schema
    cases h : mapFind name s.spec_schema_table <;>
      simp [h, State.error, mem_setInsert]
  · intro hinv n hn
    have htab : (define_spec_schema s loc name mid tps vars).spec_schema_table
        = mapInsert name ⟨loc, name, mid, tps, vars, Spec.empty, [], Spec.empty⟩
            s.spec_schema_table := by
      unfold define_spec_schema
      cases h : mapFind name s.spec_schema_table <;> simp [h, State.error]
    have hset : (define_spec_schema s loc name mid tps vars).unused_schema_set
        = setInsert name s.unused_schema_set := by
      unfold define_spec_schema
      cases h : mapFind name s.spec_schema_table <;> simp [h, State.error]
    rw [htab]
    rw [hset] at hn
    rcases (mem_setInsert n name s.unused_schema_set).mp hn with rfl | hmem
    · rw [mapFind_mapInsert_self]
      rfl
    · by_cases hne : n = name
      · subst hne
        rw [mapFind_mapInsert_self]
        rfl
      · rw [mapFind_mapInsert_ne _ _ hne]
        exact hinv n hmem

/-- C6 witness: a duplicate schema declaration over the initial state. -/
theorem define_spec_schema_duplicate_behavior_witness :
    mapFind qsymA (define_spec_schema State.initial 1 qsymA 1 [] []).spec_schema_table
      = some ⟨1, qsymA, 1, [], [], Spec.empty, [], Spec.empty⟩ ∧
    (∀ n ∈ (define_spec_schema State.initial 1 qsymA 1 [] []).unused_schema_set,
      (mapFind n (define_spec_schema State.initial 1 qsymA 1 [] []).spec_schema_table).isSome) ∧
    ((define_spec_schema (define_spec_schema State.initial 1 qsymA 1 [] []) 2 qsymA 1 [] []).diags
      = [⟨Severity.Error, 2, Msg.duplicateDecl qsymA⟩,
         ⟨Severity.Error, 1, Msg.previousDecl qsymA⟩] ∧
     qsymA ∈ (define_spec_schema (define_spec_schema State.initial 1 qsymA 1 [] [])
        2 qsymA 1 [] []).unused_schema_set ∧
     ∀ n ∈ (define_spec_schema (define_spec_schema State.initial 1 qsymA 1 [] [])
        2 qsymA 1 [] []).unused_schema_set,
      (mapFind n (define_spec_schema (define_spec_schema State.initial 1 qsymA 1 [] [])
          2 qsymA 1 [] []).spec_schema_table).isSome) := by
  refine ⟨rfl, ?_, ?_, ?_, ?_⟩
  · intro n hn
    simp only [show (define_spec_schema State.initial 1 qsymA 1 [] []).unused_schema_set
        = [qsymA] from rfl, List.mem_singleton] at hn
    subst hn
    rfl
  · have h := (define_spec_schema_duplicate_behavior
      (define_spec_schema State.initial 1 qsymA 1 [] []) 2 qsymA 1 [] []).1
      ⟨1, qsymA, 1, [], [], Spec.empty, [], Spec.empty⟩ rfl
    simpa using h
  · exact (define_spec_schema_duplicate_behavior
      (define_spec_schema State.initial 1 qsymA 1 [] []) 2 qsymA 1 [] []).2.2.1
  · have h := (define_spec_schema_duplicate_behavior
      (define_spec_schema State.initial 1 qsymA 1 [] []) 2 qsymA 1 [] []).2.2.2
    apply h
    intro n hn
    simp only [show (define_spec_schema State.initial 1 qsymA 1 [] []).unused_schema_set
        = [qsymA] from rfl, List.mem_singleton] at hn
    subst hn
    rfl


theorem filter_replicate_false {α : Type} (p : α → Bool) (a : α) (n : Nat)
    (h : p a = false) : (List.replicate n a).filter p = [] := by
  induction n with
  | zero => rfl
  | succ m ih => simp [List.replicate_succ, List.filter_cons, h, ih]

/-- C9: `ability_check_struct_def` checks nothing for an entry without a
field map, and for an entry with fields its phantom-error diagnostics are
exactly one error, at the field's location, for every field whose declared
type is a bare phantom-flagged type parameter — a condition reading only the
phantom flags, not the parameter's abilities. -/
theorem ability_check_struct_def_phantom (s : State) (entry : StructEntry) :
    (entry.fields = none → ability_check_struct_def s entry = []) ∧
    (∀ fs, entry.fields = some fs →
      (ability_check_struct_def s entry).filter
          (fun d => decide (d.msg = Msg.phantomFieldError))
        = (fs.filter
            (fun f => is_phantom_type_arg (get_ty_param_kinds entry.type_params) f.2.2.2)).map
            (fun f => (⟨Severity.Error, f.2.1, Msg.phantomFieldError⟩ : Diag))) := by
  constructor
  · intro h
    simp [ability_check_struct_def, h]
  · intro fs h
    simp only [ability_check_struct_def, h]
    generalize entry.type_params = tps
    clear h
    induction fs with
    | nil => rfl
    | cons f t ih =>
      simp only [List.map_cons, List.flatten_cons, List.filter_append]
      rw [ih]
      rw [show check_instantiation_diags s f.2.2.2 tps f.2.1
          = List.replicate (count_ability_violations (get_ty_param_kinds tps)
              (get_struct_sig s) f.2.2.2) ⟨Severity.Error, f.2.1, Msg.abilityViolation⟩
        from rfl]
      rw [filter_replicate_false _ _ _ (by rfl)]
      cases hp : is_phantom_type_arg (get_ty_param_kinds tps) f.2.2.2 <;>
        simp [hp, List.filter_cons]

/-- C9 witness: a struct with a phantom parameter, one field of that bare
parameter type and one ordinary field, plus the same entry with no field
map. -/
theorem ability_check_struct_def_phantom_witness :
    ability_check_struct_def State.initial { examplePhantomStruct with fields := none } = [] ∧
    (ability_check_struct_def State.initial examplePhantomStruct).filter
        (fun d => decide (d.msg = Msg.phantomFieldError))
      = [⟨Severity.Error, 3, Msg.phantomFieldError⟩] := by
  constructor
  · exact (ability_check_struct_def_phantom State.initial
      { examplePhantomStruct with fields := none }).1 rfl
  · have h := (ability_check_struct_def_phantom State.initial examplePhantomStruct).2
      [("f", (3, 0, Type'.TypeParameter 0)), ("g", (4, 1, Type'.Primitive 0))] rfl
    exact h.trans rfl


theorem countUnusedNote_append (n : QualifiedSymbol) (a b : List Diag) :
    countUnusedNote n (a ++ b) = countUnusedNote n a + countUnusedNote n b := by
  simp [countUnusedNote, List.filter_append]

/-- Iterating the unused-schema warning over a duplicate-free list of names
whose entries all exist emits only note-severity diagnostics, exactly one per
name that qualifies. -/
theorem warn_over_spec (s : State) (tgt : ModuleId → Bool) :
    ∀ L : List QualifiedSymbol, L.Nodup →
      (∀ n ∈ L, (mapFind n s.spec_schema_table).isSome) →
      ∃ ds, warn_unused_schemas_over s tgt L = some ds ∧
        (∀ d ∈ ds, d.severity = Severity.Note) ∧
        (∀ n, countUnusedNote n ds = if n ∈ L ∧ schema_warned s tgt n then 1 else 0) := by
  intro L
  induction L with
  | nil =>
    intro _ _
    refine ⟨[], rfl, by simp, ?_⟩
    intro n
    simp [countUnusedNote]
  | cons m t ih =>
    intro hnd hmem
    obtain ⟨e, he⟩ : ∃ e, mapFind m s.spec_schema_table = some e := by
      have hm := hmem m (List.mem_cons_self m t)
      cases hx : mapFind m s.spec_schema_table
      · rw [hx] at hm
        cases hm
      · exact ⟨_, rfl⟩
    obtain ⟨ds', hds', hsev', hcount'⟩ :=
      ih (List.Nodup.of_cons hnd) (fun n hn => hmem n (List.mem_cons_of_mem m hn))
    have hmt : m ∉ t := (List.nodup_cons.mp hnd).1
    refine ⟨(if tgt e.module_id && !(String.startsWith m.symbol ignoredSchemaMarker)
        then [⟨Severity.Note, e.loc, Msg.unusedSchema m⟩] else []) ++ ds', ?_, ?_, ?_⟩
    · simp only [warn_unused_schemas_over, he, hds']
    · intro d hd
      rcases List.mem_append.mp hd with h1 | h2
      · by_cases hc : (tgt e.module_id && !(String.startsWith m.symbol ignoredSchemaMarker))
          = true
        · rw [if_pos hc] at h1
          have : d = ⟨Severity.Note, e.loc, Msg.unusedSchema m⟩ := by simpa using h1
          rw [this]
        · rw [if_neg hc] at h1
          cases h1
      · exact hsev' d h2
    · intro n
      rw [countUnusedNote_append, hcount' n]
      by_cases hn : n = m
      · subst hn
        have ht0 : ¬ (n ∈ t ∧ schema_warned s tgt n) := fun hq => hmt hq.1
        rw [if_neg ht0]
        have hw : schema_warned s tgt n = (tgt e.module_id
            && !(String.startsWith n.symbol ignoredSchemaMarker)) := by
          simp [schema_warned, he]
        by_cases hc : (tgt e.module_id && !(String.startsWith n.symbol ignoredSchemaMarker))
            = true
        · rw [if_pos hc]
          have hcond : n ∈ n :: t ∧ schema_warned s tgt n := by
            exact ⟨List.mem_cons_self n t, by rw [hw]; exact hc⟩
          rw [if_pos hcond]
          simp [countUnusedNote]
        · rw [if_neg hc]
          have hcond : ¬ (n ∈ n :: t ∧ schema_warned s tgt n) := by
            intro hq
            exact hc (by rw [← hw]; exact hq.2)
          rw [if_neg hcond]
          simp [countUnusedNote]
      · have hhead : countUnusedNote n (if tgt e.module_id
            && !(String.startsWith m.symbol ignoredSchemaMarker)
            then [⟨Severity.Note, e.loc, Msg.unusedSchema m⟩] else []) = 0 := by
          by_cases hc : (tgt e.module_id
              && !(String.startsWith m.symbol ignoredSchemaMarker)) = true
          · rw [if_pos hc]
            simp only [countUnusedNote, List.filter_cons]
            rw [if_neg (by intro hx; simp at hx; exact hn hx.symm)]
            rfl
          · rw [if_neg hc]
            rfl
        rw [hhead]
        have : (n ∈ m :: t ∧ schema_warned s tgt n) ↔ (n ∈ t ∧ schema_warned s tgt n) := by
          constructor
          · rintro ⟨h1, h2⟩
            rcases List.mem_cons.mp h1 with rfl | h1
            · exact absurd rfl hn
            · exact ⟨h1, h2⟩
          · rintro ⟨h1, h2⟩
            exact ⟨List.mem_cons_of_mem m h1, h2⟩
        by_cases hq : n ∈ t ∧ schema_warned s tgt n
        · rw [if_pos hq, if_pos (this.mpr hq)]
        · rw [if_neg hq, if_neg (fun hx => hq (this.mp hx))]

/-- C8: when the unused-schema set is duplicate-free and every member has a
schema entry, the end-of-build pass emits only note-severity diagnostics, and
for each schema name exactly one note exactly when the name is in the set,
its owning module is a target, and its simple name does not carry the
reserved ignore marker. -/
theorem warn_unused_schemas_notes (s : State) (tgt : ModuleId → Bool)
    (hnd : s.unused_schema_set.Nodup)
    (hinv : ∀ n ∈ s.unused_schema_set, (mapFind n s.spec_schema_table).isSome) :
    ∃ ds, warn_unused_schemas s tgt = some ds ∧
      (∀ d ∈ ds, d.severity = Severity.Note) ∧
      (∀ n, countUnusedNote n ds
        = if n ∈ s.unused_schema_set ∧ schema_warned s tgt n then 1 else 0) :=
  warn_over_spec s tgt s.unused_schema_set hnd hinv

/-- C8 witness: the three-schema example state (target schema, marker-named
schema, dependency schema). -/
theorem warn_unused_schemas_notes_witness :
    (warnExampleState.unused_schema_set.Nodup ∧
     ∀ n ∈ warnExampleState.unused_schema_set,
       (mapFind n warnExampleState.spec_schema_table).isSome) ∧
    ∃ ds, warn_unused_schemas warnExampleState warnTarget = some ds ∧
      (∀ d ∈ ds, d.severity = Severity.Note) ∧
      (∀ n, countUnusedNote n ds
        = if n ∈ warnExampleState.unused_schema_set ∧ schema_warned warnExampleState warnTarget n
          then 1 else 0) :=
  ⟨⟨by decide, by decide⟩,
   warn_unused_schemas_notes warnExampleState warnTarget (by decide) (by decide)⟩


theorem define_struct_eq (s : State) (c : StructDefCall) :
    define_struct s c.loc c.attributes c.name c.module_id c.struct_id c.abilities
        c.type_params c.fields
      = { s with
          struct_table := mapInsert c.name
            ⟨c.loc, c.module_id, c.struct_id, c.type_params, c.abilities, c.fields,
              c.attributes⟩ s.struct_table,
          reverse_struct_table :=
            mapInsert (c.module_id, c.struct_id) c.name s.reverse_struct_table } := rfl

theorem lookup_struct_entry_of_rev (t : State) (mid : ModuleId) (sid : StructId)
    (n : QualifiedSymbol) (h : mapFind (mid, sid) t.reverse_struct_table = some n) :
    lookup_struct_entry t mid sid = mapFind n t.struct_table := by
  simp [lookup_struct_entry, h]

theorem define_struct_step (calls : List StructDefCall) (hcon : calls_id_compatible calls)
    (c : StructDefCall) (hc : c ∈ calls) (s : State)
    (hcons : struct_tables_consistent s) (hfrom : struct_table_from calls s) :
    struct_tables_consistent (define_struct s c.loc c.attributes c.name c.module_id
      c.struct_id c.abilities c.type_params c.fields) ∧
    struct_table_from calls (define_struct s c.loc c.attributes c.name c.module_id
      c.struct_id c.abilities c.type_params c.fields) := by
  rw [define_struct_eq]
  have hT : ({ s with
      struct_table := mapInsert c.name
        ⟨c.loc, c.module_id, c.struct_id, c.type_params, c.abilities, c.fields,
          c.attributes⟩ s.struct_table,
      reverse_struct_table :=
        mapInsert (c.module_id, c.struct_id) c.name s.reverse_struct_table } : State).struct_table
      = mapInsert c.name
          ⟨c.loc, c.module_id, c.struct_id, c.type_params, c.abilities, c.fields,
            c.attributes⟩ s.struct_table := rfl
  have hR : ({ s with
      struct_table := mapInsert c.name
        ⟨c.loc, c.module_id, c.struct_id, c.type_params, c.abilities, c.fields,
          c.attributes⟩ s.struct_table,
      reverse_struct_table :=
        mapInsert (c.module_id, c.struct_id) c.name s.reverse_struct_table } : State).reverse_struct_table
      = mapInsert (c.module_id, c.struct_id) c.name s.reverse_struct_table := rfl
  refine ⟨⟨?_, ?_⟩, ?_⟩
  · intro name e hfind
    rw [hT] at hfind
    by_cases hn : name = c.name
    · subst hn
      rw [mapFind_mapInsert_self] at hfind
      have he : e = ⟨c.loc, c.module_id, c.struct_id, c.type_params, c.abilities, c.fields,
          c.attributes⟩ := by
        injection hfind with h
        exact h.symm
      subst he
      have hrev' : mapFind ((⟨c.loc, c.module_id, c.struct_id, c.type_params, c.abilities,
          c.fields, c.attributes⟩ : StructEntry).module_id,
          (⟨c.loc, c.module_id, c.struct_id, c.type_params, c.abilities, c.fields,
            c.attributes⟩ : StructEntry).struct_id)
          (mapInsert (c.module_id, c.struct_id) c.name s.reverse_struct_table)
          = some c.name := mapFind_mapInsert_self _ _ _
      refine ⟨by rw [hR]; exact hrev', ?_⟩
      rw [lookup_struct_entry_of_rev _ _ _ _ (by rw [hR]; exact hrev')]
      rw [hT]
      exact mapFind_mapInsert_self _ _ _
    · rw [mapFind_mapInsert_ne _ _ hn] at hfind
      obtain ⟨hrev, _⟩ := hcons.1 name e hfind
      obtain ⟨c', hc', hcname, hcm, hcs⟩ := hfrom name e hfind
      have hids : ((e.module_id, e.struct_id) : ModuleId × StructId)
          ≠ (c.module_id, c.struct_id) := by
        intro hq
        have h1 : e.module_id = c.module_id := congrArg Prod.fst hq
        have h2 : e.struct_id = c.struct_id := congrArg Prod.snd hq
        have hcc : c'.name = c.name :=
          (hcon c' hc' c hc).mpr ⟨hcm.trans h1, hcs.trans h2⟩
        exact hn (hcname ▸ hcc)
      have hrev' : mapFind (e.module_id, e.struct_id)
          (mapInsert (c.module_id, c.struct_id) c.name s.reverse_struct_table)
          = some name := by
        rw [mapFind_mapInsert_ne _ _ hids]
        exact hrev
      refine ⟨by rw [hR]; exact hrev', ?_⟩
      rw [lookup_struct_entry_of_rev _ _ _ _ (by rw [hR]; exact hrev')]
      rw [hT, mapFind_mapInsert_ne _ _ hn]
      exact hfind
  · intro mid sid name hrev
    rw [hR] at hrev
    by_cases hk : ((mid, sid) : ModuleId × StructId) = (c.module_id, c.struct_id)
    · rw [hk, mapFind_mapInsert_self] at hrev
      have hname : name = c.name := by
        injection hrev with h
        exact h.symm
      subst hname
      refine ⟨⟨c.loc, c.module_id, c.struct_id, c.type_params, c.abilities, c.fields,
          c.attributes⟩, ?_, ?_, ?_⟩
      · rw [hT]
        exact mapFind_mapInsert_self _ _ _
      · exact (congrArg Prod.fst hk).symm
      · exact (congrArg Prod.snd hk).symm
    · rw [mapFind_mapInsert_ne _ _ hk] at hrev
      obtain ⟨e, hfind, hm, hs2⟩ := hcons.2 mid sid name hrev
      have hnn : name ≠ c.name := by
        intro hq
        subst hq
        obtain ⟨c', hc', hcname, hcm, hcs⟩ := hfrom c.name e hfind
        have hcc : c'.module_id = c.module_id ∧ c'.struct_id = c.struct_id :=
          (hcon c' hc' c hc).mp hcname
        apply hk
        rw [← hm, ← hs2, ← hcm, ← hcs, hcc.1, hcc.2]
      refine ⟨e, ?_, hm, hs2⟩
      rw [hT, mapFind_mapInsert_ne _ _ hnn]
      exact hfind
  · intro name e hfind
    rw [hT] at hfind
    by_cases hn : name = c.name
    · subst hn
      rw [mapFind_mapInsert_self] at hfind
      have he : e = ⟨c.loc, c.module_id, c.struct_id, c.type_params, c.abilities, c.fields,
          c.attributes⟩ := by
        injection hfind with h
        exact h.symm
      subst he
      exact ⟨c, hc, rfl, rfl, rfl⟩
    · rw [mapFind_mapInsert_ne _ _ hn] at hfind
      exact hfrom name e hfind

theorem apply_define_structs_consistent (calls : List StructDefCall)
    (hcon : calls_id_compatible calls) :
    ∀ todo : List StructDefCall, (∀ c ∈ todo, c ∈ calls) →
      ∀ s : State, struct_tables_consistent s → struct_table_from calls s →
        struct_tables_consistent (apply_define_structs s todo) ∧
          struct_table_from calls (apply_define_structs s todo) := by
  intro todo
  induction todo with
  | nil =>
    intro _ s h1 h2
    exact ⟨h1, h2⟩
  | cons c cs ih =>
    intro htodo s h1 h2
    have hstep := define_struct_step calls hcon c (htodo c (List.mem_cons_self c cs)) s h1 h2
    exact ih (fun d hd => htodo d (List.mem_cons_of_mem c hd)) _ hstep.1 hstep.2

/-- C1 amended: starting from empty struct tables, any sequence of
`define_struct` calls whose id pairs are assigned compatibly with the
qualified names (same name exactly when same pair — in particular
re-definitions of a name reuse its pair) leaves the struct table and the
reverse struct table mutually consistent, with `lookup_struct_entry`
round-tripping every registered entry. -/
theorem define_struct_consistent_of_compatible_ids (s : State)
    (calls : List StructDefCall)
    (hst : s.struct_table = []) (hrev : s.reverse_struct_table = [])
    (hcon : calls_id_compatible calls) :
    struct_tables_consistent (apply_define_structs s calls) := by
  have h1 : struct_tables_consistent s := by
    constructor
    · intro name e hfind
      rw [hst] at hfind
      simp [mapFind] at hfind
    · intro mid sid name hrev'
      rw [hrev] at hrev'
      simp [mapFind] at hrev'
  have h2 : struct_table_from calls s := by
    intro name e hfind
    rw [hst] at hfind
    simp [mapFind] at hfind
  exact (apply_define_structs_consistent calls hcon calls (fun c h => h) s h1 h2).1

/-- C1 counterexample: re-defining the same qualified name with a different
`(module_id, struct_id)` pair leaves a stale reverse entry whose pair no
longer matches any struct entry, so consistency fails for an unconstrained
call sequence. -/
theorem struct_tables_inconsistent_after_redefinition :
    ¬ struct_tables_consistent (apply_define_structs State.initial
      [⟨0, [], qsymA, 0, 0, AbilitySet.empty, [], none⟩,
       ⟨1, [], qsymA, 1, 1, AbilitySet.empty, [], none⟩]) := by
  intro hc
  obtain ⟨e, he, hm, hs⟩ := hc.2 0 0 qsymA rfl
  have h2 : mapFind qsymA (apply_define_structs State.initial
      [⟨0, [], qsymA, 0, 0, AbilitySet.empty, [], none⟩,
       ⟨1, [], qsymA, 1, 1, AbilitySet.empty, [], none⟩]).struct_table
      = some ⟨1, 1, 1, [], AbilitySet.empty, none, []⟩ := rfl
  rw [h2] at he
  injection he with he
  rw [← he] at hm
  simp at hm

/-- C1 witness: three calls (two names, one re-definition reusing its id
pair) starting from the empty tables. -/
theorem define_struct_consistent_of_compatible_ids_witness :
    (State.initial.struct_table = [] ∧ State.initial.reverse_struct_table = [] ∧
     calls_id_compatible exampleStructCalls) ∧
    struct_tables_consistent (apply_define_structs State.initial exampleStructCalls) :=
  ⟨⟨rfl, rfl, by unfold calls_id_compatible exampleStructCalls; decide⟩,
   define_struct_consistent_of_compatible_ids State.initial exampleStructCalls rfl rfl
     (by unfold calls_id_compatible exampleStructCalls; decide)⟩

end ModelBuilding
